import Mathlib

/-!
# Verification of `acoustics/octave.py`

Shallow embedding of the fractional-octave band module: the four free band
arithmetic functions (`band_of_frequency`, `frequency_of_band`,
`upper_frequency`, `lower_frequency`) and the `Octave` calculator class.

Modelling conventions:
* Python floats are modelled as real numbers (`ℝ`); `np.round` is modelled
  by `np_round`, round-half-to-even, as NumPy rounds.
* A NumPy array is modelled by `NDArray`: `np.asarray` applied to a numeric
  sequence gives `NDArray.numeric`, applied to Python `None` it gives the
  zero-dimensional object array `NDArray.objNone`.  An `ndarray` is never
  the Python `None` singleton, so an `x is not None` test on a stored array
  is always true (`NDArray.isNotNone`).
* Numeric operations on the object array `np.asarray(None)` raise
  `TypeError`; fallible evaluations therefore return `Option`, with `none`
  for a raised exception.
* IEEE special values (needed only for the behaviour of `np.log2` on
  non-positive input) are modelled separately by `PyFloat`.
-/

namespace Acoustics

noncomputable section

/-- `REFERENCE = 1000.0`, the module-level reference frequency. -/
def REFERENCE : ℝ := 1000.0

/-- Integer value of `np.round` on a real scalar: round half to even
(NumPy/IEEE default rounding). Away from ties it agrees with rounding to
the nearest integer. -/
def np_roundInt (x : ℝ) : ℤ :=
  if Int.fract x = 1 / 2 then (if Even ⌊x⌋ then ⌊x⌋ else ⌊x⌋ + 1) else round x

/-- `np.round` on a real scalar, as a real number (NumPy returns a float). -/
def np_round (x : ℝ) : ℝ := (np_roundInt x : ℝ)

/-- `band_of_frequency(f, fraction, ref)` =
`np.round((np.log2(f/ref) - 1.0/fraction) * fraction)`. -/
def band_of_frequency (f : ℝ) (fraction : ℝ) (ref : ℝ) : ℝ :=
  np_round ((Real.logb 2 (f / ref) - 1 / fraction) * fraction)

/-- `frequency_of_band(n, fraction, ref)` =
`ref * 10.0**(3.0/fraction/10.0) * 2.0**(n/fraction)`. -/
def frequency_of_band (n : ℝ) (fraction : ℝ) (ref : ℝ) : ℝ :=
  ref * (10 : ℝ) ^ (3 / fraction / 10 : ℝ) * (2 : ℝ) ^ (n / fraction : ℝ)

/-- `upper_frequency(center, fraction)` = `center * 2.0**(+1.0/(2.0*fraction))`. -/
def upper_frequency (center : ℝ) (fraction : ℝ) : ℝ :=
  center * (2 : ℝ) ^ (1 / (2 * fraction) : ℝ)

/-- `lower_frequency(center, fraction)` = `center * 2.0**(-1.0/(2.0*fraction))`. -/
def lower_frequency (center : ℝ) (fraction : ℝ) : ℝ :=
  center * (2 : ℝ) ^ (-1 / (2 * fraction) : ℝ)

/-- A NumPy array as stored in the calculator's `_interval` slot:
`np.asarray` of a numeric sequence, or `np.asarray(None)` — a
zero-dimensional object array wrapping Python `None`. -/
inductive NDArray
  | numeric (xs : List ℝ)
  | objNone

/-- `np.asarray` applied to the `interval` argument (a numeric sequence or
Python `None`). -/
def np_asarray : Option (List ℝ) → NDArray
  | some xs => NDArray.numeric xs
  | none => NDArray.objNone

/-- An `ndarray` object is never the Python `None` singleton, so the test
`arr is not None` is true for every array — including `np.asarray(None)`. -/
def NDArray.isNotNone (_ : NDArray) : Bool := true

/-- Using the stored array as numbers (as `np.log2` and arithmetic do):
succeeds on a numeric array, raises `TypeError` (modelled `none`) on the
object array `np.asarray(None)`. -/
def NDArray.toList? : NDArray → Option (List ℝ)
  | NDArray.numeric xs => some xs
  | NDArray.objNone => none

/-- `arr.min()`: the minimum of a numeric array; raises (modelled `none`)
on the object array or an empty array. -/
def NDArray.min? : NDArray → Option ℝ
  | NDArray.numeric xs => xs.min?
  | NDArray.objNone => none

/-- `arr.max()`: the maximum of a numeric array; raises (modelled `none`)
on the object array or an empty array. -/
def NDArray.max? : NDArray → Option ℝ
  | NDArray.numeric xs => xs.max?
  | NDArray.objNone => none

/-- `np.arange(start, stop)` with unit step on float scalars: the values
`start, start+1, ...` strictly below `stop`; the number of elements is
`⌈stop - start⌉` (zero if non-positive). -/
def np_arange (start stop : ℝ) : List ℝ :=
  (List.range (⌈stop - start⌉.toNat)).map fun i => start + i

/-- Python truthiness of the `_fmin` / `_fmax` slot (a float or `None`):
falsy iff it is `None` or `0.0`.  The interval setter tests
`if self._fmin or self._fmax`. -/
def pyFalsy (v : Option ℝ) : Prop := v = none ∨ v = some 0

instance (v : Option ℝ) : Decidable (pyFalsy v) := by
  unfold pyFalsy; infer_instance

/-- State of an `Octave` instance after `__init__` (or setters): public
attributes `reference`, `fraction`, `unique`, and the private slots
`_interval` (always an `ndarray`: `np.asarray` of the supplied interval),
`_fmin`, `_fmax`. -/
structure Octave where
  reference : ℝ
  fraction : ℝ
  _interval : NDArray
  _fmin : Option ℝ
  _fmax : Option ℝ
  unique : Bool

/-- `Octave.__init__(fraction, interval, fmin, fmax, unique, reference)`:
raises `AttributeError` (modelled `none`) when `interval` is not `None`
and `fmin` or `fmax` is not `None`; otherwise stores
`np.asarray(interval)` and the remaining arguments. -/
def Octave.mk? (fraction : ℝ) (interval : Option (List ℝ)) (fmin fmax : Option ℝ)
    (unique : Bool) (reference : ℝ) : Option Octave :=
  if interval.isSome && (fmin.isSome || fmax.isSome) then none
  else some { reference := reference, fraction := fraction,
              _interval := np_asarray interval, _fmin := fmin, _fmax := fmax,
              unique := unique }

/-- The `interval` property getter: returns `self._interval`. -/
def Octave.interval (o : Octave) : NDArray := o._interval

/-- The `fmin` property getter: `self._fmin` if set, else (since the stored
`_interval` is an array, hence never `None`) `self.interval.min()`, which
raises on `np.asarray(None)`. A raised exception is modelled `none`. -/
def Octave.fmin (o : Octave) : Option ℝ :=
  match o._fmin with
  | some x => some x
  | none => if o._interval.isNotNone then o._interval.min? else none

/-- The `fmax` property getter, symmetric to `fmin` with `max`. -/
def Octave.fmax (o : Octave) : Option ℝ :=
  match o._fmax with
  | some x => some x
  | none => if o._interval.isNotNone then o._interval.max? else none

/-- The `fmin` setter: `if self.interval is not None: pass else: self._fmin = x`. -/
def Octave.setFmin (o : Octave) (x : ℝ) : Octave :=
  if o.interval.isNotNone then o else { o with _fmin := some x }

/-- The `fmax` setter: `if self.interval is not None: pass else: self._fmax = x`. -/
def Octave.setFmax (o : Octave) (x : ℝ) : Octave :=
  if o.interval.isNotNone then o else { o with _fmax := some x }

/-- The `interval` setter:
`if self._fmin or self._fmax: pass else: self._interval = np.asarray(x)` —
the guard is Python truthiness, so the interval is stored iff both slots
are falsy (`None` or `0.0`). -/
def Octave.setInterval (o : Octave) (x : List ℝ) : Octave :=
  if pyFalsy o._fmin ∧ pyFalsy o._fmax then
    { o with _interval := np_asarray (some x) }
  else o

/-- The `n` property:
`if self.interval is not None and self.unique: return self._n(self.interval)`
`else: return np.arange(self._n(self.fmin), self._n(self.fmax)+1)`.
`self._n(f)` is `band_of_frequency(f, self.fraction, self.reference)`,
applied elementwise to an array.  Raised exceptions are modelled `none`. -/
def Octave.n (o : Octave) : Option (List ℝ) :=
  if o.interval.isNotNone && o.unique then
    (o.interval.toList?).map (List.map fun f => band_of_frequency f o.fraction o.reference)
  else do
    let a ← o.fmin
    let b ← o.fmax
    some (np_arange (band_of_frequency a o.fraction o.reference)
                    (band_of_frequency b o.fraction o.reference + 1))

/-- The `center` property: `self._fc(self.n)`, i.e. `frequency_of_band`
applied elementwise to `n`. -/
def Octave.center (o : Octave) : Option (List ℝ) :=
  (o.n).map (List.map fun m => frequency_of_band m o.fraction o.reference)

/-- The `lower` property: `lower_frequency(self.center, self.fraction)`. -/
def Octave.lower (o : Octave) : Option (List ℝ) :=
  (o.center).map (List.map fun c => lower_frequency c o.fraction)

/-- The `upper` property: `upper_frequency(self.center, self.fraction)`. -/
def Octave.upper (o : Octave) : Option (List ℝ) :=
  (o.center).map (List.map fun c => upper_frequency c o.fraction)

/-- The `bandwidth` property: `self.upper - self.lower`, NumPy elementwise
subtraction of the two equal-length arrays. -/
def Octave.bandwidth (o : Octave) : Option (List ℝ) :=
  match o.upper, o.lower with
  | some u, some l => some (List.zipWith (fun a b => a - b) u l)
  | _, _ => none

/-! ## Concrete calculator instances used as evaluation points -/

/-- The calculator `Octave(fraction=1, fmin=500, fmax=2000, unique=True)`:
bounds mode with `unique` set, no interval supplied. -/
def oC1 : Octave :=
  { reference := 1000, fraction := 1, _interval := np_asarray none,
    _fmin := some 500, _fmax := some 2000, unique := true }

/-- The calculator `Octave(fraction=1, fmin=100, fmax=200)`. -/
def oC3 : Octave :=
  { reference := 1000, fraction := 1, _interval := np_asarray none,
    _fmin := some 100, _fmax := some 200, unique := false }

/-- The calculator `Octave(fraction=1, fmin=0)`: explicit minimum bound `0.0`. -/
def oC4 : Octave :=
  { reference := 1000, fraction := 1, _interval := np_asarray none,
    _fmin := some 0, _fmax := none, unique := false }

/-- The calculator `Octave(fraction=1, fmin=100)`: explicit nonzero minimum. -/
def oC4w : Octave :=
  { reference := 1000, fraction := 1, _interval := np_asarray none,
    _fmin := some 100, _fmax := none, unique := false }

/-- The calculator `Octave(fraction=3, interval=[1000, 2000], unique=True)`. -/
def oC5 : Octave :=
  { reference := 1000, fraction := 3, _interval := np_asarray (some [1000, 2000]),
    _fmin := none, _fmax := none, unique := true }

/-- The calculator `Octave(fraction=1, unique=True)`: nothing supplied but
the flag. -/
def oC10 : Octave :=
  { reference := 1000, fraction := 1, _interval := np_asarray none,
    _fmin := none, _fmax := none, unique := true }

/-! ## Claim theorems: configuration and property dispatch -/

/-- C1: the claim says a calculator built with `fmin`/`fmax` and no interval
returns the contiguous band range from `band(fmin)` to `band(fmax)` for
every value of `unique`.  On the code, `_interval` is `np.asarray(None)`,
which is *not* Python `None`, so with `unique=True` the `n` property takes
the interval branch and crashes (`TypeError` from `np.log2` on the object
array, modelled `none`) instead of returning the range. -/
theorem C1_bounds_unique_crashes :
    Octave.mk? 1 none (some 500) (some 2000) true 1000 = some oC1 ∧ oC1.n = none :=
  ⟨rfl, rfl⟩

/-- C2: construction fails (raises `AttributeError`, at `__init__` itself)
exactly when an interval is supplied together with `fmin` or `fmax`, and
succeeds whenever at most one of the two configuration sources is given. -/
theorem C2_construction_guard (fraction : ℝ) (interval : Option (List ℝ))
    (fmin fmax : Option ℝ) (unique : Bool) (reference : ℝ) :
    Octave.mk? fraction interval fmin fmax unique reference = none ↔
      interval.isSome = true ∧ (fmin.isSome = true ∨ fmax.isSome = true) := by
  rcases interval <;> rcases fmin <;> rcases fmax <;> simp [Octave.mk?]

/-- C3: the claim says that in bounds mode assigning to `fmin` updates the
stored minimum.  On the code the setter guard `self.interval is not None`
is always true (the slot holds `np.asarray(None)`), so the assignment is a
silent no-op: after `o.fmin = 50` the property still returns `100`. -/
theorem C3_fmin_setter_noop :
    Octave.mk? 1 none (some 100) (some 200) false 1000 = some oC3 ∧
    oC3.setFmin 50 = oC3 ∧ (oC3.setFmin 50).fmin = some 100 ∧
    oC3.setFmax 300 = oC3 ∧ (oC3.setFmax 300).fmax = some 200 :=
  ⟨rfl, rfl, rfl, rfl, rfl⟩

/-- C4, counterexample: with `fmin` explicitly set to `0.0` (falsy in
Python), the interval setter's truthiness guard `if self._fmin or
self._fmax` does not fire, so assigning an interval stores it — an
explicitly supplied interval and an explicitly set `fmin` end up present
simultaneously, contradicting the claimed invariant. -/
theorem C4_zero_fmin_interval_stored :
    Octave.mk? 1 none (some 0) none false 1000 = some oC4 ∧
    (oC4.setInterval [100, 200])._interval = NDArray.numeric [100, 200] ∧
    (oC4.setInterval [100, 200])._fmin = some 0 := by
  have h : pyFalsy oC4._fmin ∧ pyFalsy oC4._fmax :=
    ⟨Or.inr rfl, Or.inl rfl⟩
  refine ⟨rfl, ?_, ?_⟩ <;> (rw [Octave.setInterval, if_pos h]; rfl)

/-- C4, amended: construction rejects an interval together with explicit
bounds; the `fmin`/`fmax` setters never store anything (unconditional
no-ops); and assigning to `interval` is ignored whenever `fmin` or `fmax`
holds a *truthy* value (anything other than `None` or `0.0`). -/
theorem C4_mutual_exclusion :
    (∀ fraction interval fmin fmax unique reference o,
        Octave.mk? fraction interval fmin fmax unique reference = some o →
        ¬(interval.isSome = true ∧ (fmin.isSome = true ∨ fmax.isSome = true))) ∧
    (∀ (o : Octave) (x : ℝ), o.setFmin x = o) ∧
    (∀ (o : Octave) (x : ℝ), o.setFmax x = o) ∧
    (∀ (o : Octave) (x : List ℝ),
        ¬ pyFalsy o._fmin ∨ ¬ pyFalsy o._fmax → o.setInterval x = o) := by
  refine ⟨?_, fun o x => rfl, fun o x => rfl, ?_⟩
  · intro fraction interval fmin fmax unique reference o h
    rcases interval <;> rcases fmin <;> rcases fmax <;> simp_all [Octave.mk?]
  · intro o x h
    rw [Octave.setInterval, if_neg]
    tauto

/-- C4, witness: a calculator with `fmin = 100` ignores interval assignment. -/
theorem C4_mutual_exclusion_witness : oC4w.setInterval [1, 2] = oC4w :=
  C4_mutual_exclusion.2.2.2 oC4w [1, 2]
    (Or.inl (fun h => by
      rcases h with h | h
      · exact Option.noConfusion h
      · exact absurd (Option.some.inj h) (by norm_num)))

/-- C5: with an interval supplied and `unique=True`, the `n` property maps
`band_of_frequency` (with the calculator's fraction and reference) over the
interval elementwise — same order and length, no deduplication, no sort. -/
theorem C5_unique_band_per_element (fraction reference : ℝ) (xs : List ℝ) (o : Octave)
    (h : Octave.mk? fraction (some xs) none none true reference = some o) :
    o.n = some (xs.map fun f => band_of_frequency f fraction reference) := by
  have ho : o =
      { reference := reference, fraction := fraction,
        _interval := np_asarray (some xs), _fmin := none, _fmax := none,
        unique := true } := by
    simpa [Octave.mk?] using h.symm
  subst ho
  rfl

/-- C5, witness: `Octave(fraction=3, interval=[1000, 2000], unique=True).n`
has one band per input frequency, in input order. -/
theorem C5_unique_band_per_element_witness :
    oC5.n = some [band_of_frequency 1000 3 1000, band_of_frequency 2000 3 1000] :=
  C5_unique_band_per_element 3 1000 [1000, 2000] oC5 rfl

/-- C10: however the calculator is constructed without an interval, the
stored interval slot holds `np.asarray(None)` — an object array, never
Python `None` — so the `interval` property never returns `None`, the
`fmin`/`fmax` setter guards see an interval as present (no-ops), and with
`unique=True` the `n` property takes the interval branch (and crashes on
the object array, modelled `none`). -/
theorem C10_interval_never_none (fraction : ℝ) (fmin fmax : Option ℝ)
    (unique : Bool) (reference : ℝ) (o : Octave) (x y : ℝ)
    (h : Octave.mk? fraction none fmin fmax unique reference = some o) :
    o.interval = NDArray.objNone ∧ o.interval.isNotNone = true ∧
    o.setFmin x = o ∧ o.setFmax y = o ∧ (o.unique = true → o.n = none) := by
  have ho : o =
      { reference := reference, fraction := fraction,
        _interval := np_asarray none, _fmin := fmin, _fmax := fmax,
        unique := unique } := by
    simpa [Octave.mk?] using h.symm
  subst ho
  refine ⟨rfl, rfl, rfl, rfl, fun hu => ?_⟩
  have hu' : unique = true := hu
  subst hu'
  rfl

/-- C10, witness: the calculator `Octave(unique=True)` (nothing else
supplied) exhibits all of it at concrete inputs. -/
theorem C10_interval_never_none_witness :
    oC10.interval = NDArray.objNone ∧ oC10.interval.isNotNone = true ∧
    oC10.setFmin 50 = oC10 ∧ oC10.setFmax 60 = oC10 ∧ oC10.n = none :=
  ⟨(C10_interval_never_none 1 none none true 1000 oC10 50 60 rfl).1,
   (C10_interval_never_none 1 none none true 1000 oC10 50 60 rfl).2.1,
   (C10_interval_never_none 1 none none true 1000 oC10 50 60 rfl).2.2.1,
   (C10_interval_never_none 1 none none true 1000 oC10 50 60 rfl).2.2.2.1,
   (C10_interval_never_none 1 none none true 1000 oC10 50 60 rfl).2.2.2.2 rfl⟩

/-! ## IEEE special values (for the behaviour on non-positive frequencies)

The band formula itself never raises: `np.log2` of a non-positive float
returns NaN (negative argument) or `-inf` (zero argument) with a runtime
warning, and subtraction, multiplication and `np.round` propagate them.
`PyFloat` models a double as a real number or one of the special values. -/

/-- An IEEE double: a (finite) real number, NaN, `+inf` or `-inf`. -/
inductive PyFloat
  | num (x : ℝ)
  | nan
  | inf
  | ninf

namespace PyFloat

/-- IEEE subtraction restricted to the values above. -/
def sub : PyFloat → PyFloat → PyFloat
  | num a, num b => num (a - b)
  | nan, _ => nan
  | _, nan => nan
  | inf, inf => nan
  | inf, _ => inf
  | ninf, ninf => nan
  | ninf, _ => ninf
  | num _, inf => ninf
  | num _, ninf => inf

/-- IEEE multiplication restricted to the values above. -/
def mul : PyFloat → PyFloat → PyFloat
  | num a, num b => num (a * b)
  | nan, _ => nan
  | _, nan => nan
  | inf, inf => inf
  | inf, ninf => ninf
  | ninf, inf => ninf
  | ninf, ninf => inf
  | inf, num b => if b = 0 then nan else if 0 < b then inf else ninf
  | num a, inf => if a = 0 then nan else if 0 < a then inf else ninf
  | ninf, num b => if b = 0 then nan else if 0 < b then ninf else inf
  | num a, ninf => if a = 0 then nan else if 0 < a then ninf else inf

/-- IEEE division restricted to the values above (NumPy semantics: a finite
number divided by zero gives `±inf`/NaN, not an exception; signed zeros are
not modelled). -/
def div : PyFloat → PyFloat → PyFloat
  | num a, num b =>
      if b = 0 then (if a = 0 then nan else if 0 < a then inf else ninf)
      else num (a / b)
  | nan, _ => nan
  | _, nan => nan
  | inf, inf => nan
  | inf, ninf => nan
  | ninf, inf => nan
  | ninf, ninf => nan
  | inf, num b => if 0 ≤ b then inf else ninf
  | ninf, num b => if 0 ≤ b then ninf else inf
  | num _, inf => num 0
  | num _, ninf => num 0

/-- `np.log2` on a double: NaN on a negative argument, `-inf` at zero,
the real logarithm on a positive argument. -/
def log2 : PyFloat → PyFloat
  | num x => if x < 0 then nan else if x = 0 then ninf else num (Real.logb 2 x)
  | nan => nan
  | inf => inf
  | ninf => nan

/-- `np.round` on a double: special values are returned unchanged. -/
def roundf : PyFloat → PyFloat
  | num x => num (np_round x)
  | nan => nan
  | inf => inf
  | ninf => ninf

/-- Finiteness test (`np.isfinite`). -/
def isFinite : PyFloat → Bool
  | num _ => true
  | _ => false

end PyFloat

/-- `band_of_frequency` evaluated in double arithmetic:
`np.round((np.log2(f/ref) - 1.0/fraction) * fraction)` with IEEE
special-value propagation. -/
def band_of_frequency_float (f fraction ref : PyFloat) : PyFloat :=
  PyFloat.roundf (PyFloat.mul
    (PyFloat.sub (PyFloat.log2 (PyFloat.div f ref)) (PyFloat.div (PyFloat.num 1) fraction))
    fraction)

/-! ## Claim theorems: band edge arithmetic and numeric failures -/

/-- C7: for positive center and fraction, the band edges strictly bracket
the center, and their ratio is exactly `2^(1/fraction)`. -/
theorem C7_edges_bracket_center (center fraction : ℝ)
    (hc : 0 < center) (hN : 0 < fraction) :
    lower_frequency center fraction < center ∧
    center < upper_frequency center fraction ∧
    upper_frequency center fraction / lower_frequency center fraction
      = (2 : ℝ) ^ (1 / fraction : ℝ) := by
  have h2N : (0 : ℝ) < 2 * fraction := by linarith
  have hlt1 : (2 : ℝ) ^ (-1 / (2 * fraction) : ℝ) < 1 :=
    Real.rpow_lt_one_of_one_lt_of_neg one_lt_two
      (div_neg_of_neg_of_pos (by norm_num) h2N)
  have hgt1 : (1 : ℝ) < (2 : ℝ) ^ (1 / (2 * fraction) : ℝ) :=
    (Real.one_lt_rpow_iff_of_pos two_pos).mpr (Or.inl ⟨one_lt_two, by positivity⟩)
  refine ⟨?_, ?_, ?_⟩
  · rw [lower_frequency]
    exact mul_lt_of_lt_one_right hc hlt1
  · rw [upper_frequency]
    exact lt_mul_of_one_lt_right hc hgt1
  · rw [upper_frequency, lower_frequency,
      mul_div_mul_left _ _ (ne_of_gt hc), ← Real.rpow_sub two_pos]
    congr 1
    rw [div_sub_div_same]
    rw [show (1 : ℝ) - -1 = 2 by norm_num]
    rw [mul_comm, ← div_div, div_right_comm, div_self (two_ne_zero : (2 : ℝ) ≠ 0)]

/-- C7, witness: at `center = 1`, `fraction = 1`. -/
theorem C7_edges_bracket_center_witness :
    lower_frequency 1 1 < 1 ∧ (1 : ℝ) < upper_frequency 1 1 ∧
    upper_frequency 1 1 / lower_frequency 1 1 = (2 : ℝ) ^ (1 / 1 : ℝ) :=
  C7_edges_bracket_center 1 1 one_pos one_pos

/-- C9: a non-positive frequency fed to the band formula (with positive
fraction and reference) does not raise: it yields NaN (negative `f`) or
`-inf` (zero `f`), a non-finite value that propagates to the caller. -/
theorem C9_nonpositive_frequency_nonfinite (f fraction ref : ℝ)
    (hf : f ≤ 0) (hN : 0 < fraction) (href : 0 < ref) :
    (band_of_frequency_float (PyFloat.num f) (PyFloat.num fraction)
        (PyFloat.num ref)).isFinite = false ∧
    (band_of_frequency_float (PyFloat.num f) (PyFloat.num fraction)
        (PyFloat.num ref) = PyFloat.nan ∨
     band_of_frequency_float (PyFloat.num f) (PyFloat.num fraction)
        (PyFloat.num ref) = PyFloat.ninf) := by
  have hdivref : PyFloat.div (PyFloat.num f) (PyFloat.num ref) = PyFloat.num (f / ref) := by
    simp [PyFloat.div, href.ne']
  have hdivfrac : PyFloat.div (PyFloat.num 1) (PyFloat.num fraction)
      = PyFloat.num (1 / fraction) := by
    simp [PyFloat.div, hN.ne']
  rcases eq_or_lt_of_le hf with heq | hlt
  · subst heq
    rw [band_of_frequency_float, hdivref, zero_div]
    rw [show PyFloat.log2 (PyFloat.num 0) = PyFloat.ninf by simp [PyFloat.log2]]
    rw [hdivfrac]
    rw [show PyFloat.sub PyFloat.ninf (PyFloat.num (1 / fraction)) = PyFloat.ninf from rfl]
    rw [show PyFloat.mul PyFloat.ninf (PyFloat.num fraction) = PyFloat.ninf by
      simp [PyFloat.mul, hN.ne', hN]]
    exact ⟨rfl, Or.inr rfl⟩
  · have hneg : f / ref < 0 := div_neg_of_neg_of_pos hlt href
    rw [band_of_frequency_float, hdivref]
    rw [show PyFloat.log2 (PyFloat.num (f / ref)) = PyFloat.nan by
      simp [PyFloat.log2, hneg]]
    rw [hdivfrac]
    exact ⟨rfl, Or.inl rfl⟩

/-- C9, witness: at `f = -1`, `fraction = 1`, `ref = 1000`. -/
theorem C9_nonpositive_frequency_nonfinite_witness :
    (band_of_frequency_float (PyFloat.num (-1)) (PyFloat.num 1)
        (PyFloat.num 1000)).isFinite = false ∧
    (band_of_frequency_float (PyFloat.num (-1)) (PyFloat.num 1)
        (PyFloat.num 1000) = PyFloat.nan ∨
     band_of_frequency_float (PyFloat.num (-1)) (PyFloat.num 1)
        (PyFloat.num 1000) = PyFloat.ninf) :=
  C9_nonpositive_frequency_nonfinite (-1) 1 1000 (by norm_num) one_pos (by norm_num)

/-! ## Round-trip quantization (claim C6) -/

/-- `np.round` moves a real by at most one half. -/
theorem abs_np_round_sub (x : ℝ) : |np_round x - x| ≤ 1 / 2 := by
  rw [np_round, np_roundInt]
  split_ifs with h h2
  · have hfl : (⌊x⌋ : ℝ) = x - 1 / 2 := by
      rw [Int.fract] at h
      linarith
    have : (⌊x⌋ : ℝ) - x = -(1 / 2) := by rw [hfl]; ring
    rw [this, abs_neg, abs_of_pos (by norm_num : (0 : ℝ) < 1 / 2)]
  · have hfl : (⌊x⌋ : ℝ) = x - 1 / 2 := by
      rw [Int.fract] at h
      linarith
    have : ((⌊x⌋ + 1 : ℤ) : ℝ) - x = 1 / 2 := by push_cast; rw [hfl]; ring
    rw [this, abs_of_pos (by norm_num : (0 : ℝ) < 1 / 2)]
  · rw [abs_sub_comm]
    exact abs_sub_round x

/-- `log₂ 10 < 10/3`, i.e. `10³ < 2¹⁰`. -/
theorem logb_two_ten_lt : Real.logb 2 10 < 10 / 3 := by
  rw [Real.logb, div_lt_iff₀ (Real.log_pos one_lt_two)]
  have h : Real.log 1000 < Real.log 1024 :=
    Real.log_lt_log (by norm_num) (by norm_num)
  have h1 : Real.log 1000 = 3 * Real.log 10 := by
    rw [show (1000 : ℝ) = 10 ^ (3 : ℕ) by norm_num, Real.log_pow]
    norm_num
  have h2 : Real.log 1024 = 10 * Real.log 2 := by
    rw [show (1024 : ℝ) = 2 ^ (10 : ℕ) by norm_num, Real.log_pow]
    norm_num
  linarith

/-- `5/3 < log₂ 10`, i.e. `2⁵ < 10³ (32 < 1000)`. -/
theorem lt_logb_two_ten : 5 / 3 < Real.logb 2 10 := by
  rw [Real.logb, lt_div_iff₀ (Real.log_pos one_lt_two)]
  have h : Real.log 32 < Real.log 1000 :=
    Real.log_lt_log (by norm_num) (by norm_num)
  have h1 : Real.log 32 = 5 * Real.log 2 := by
    rw [show (32 : ℝ) = 2 ^ (5 : ℕ) by norm_num, Real.log_pow]
    norm_num
  have h2 : Real.log 1000 = 3 * Real.log 10 := by
    rw [show (1000 : ℝ) = 10 ^ (3 : ℕ) by norm_num, Real.log_pow]
    norm_num
  linarith

/-- `frequency_of_band` written with a single base-2 power:
`ref · 10^(3/(10N)) · 2^(n/N) = ref · 2^(log₂10 · 3/(10N) + n/N)`. -/
theorem frequency_band_rpow (n fraction ref : ℝ) :
    frequency_of_band n fraction ref
      = ref * (2 : ℝ) ^ (Real.logb 2 10 * (3 / fraction / 10) + n / fraction) := by
  have h10 : (10 : ℝ) ^ (3 / fraction / 10 : ℝ)
      = (2 : ℝ) ^ (Real.logb 2 10 * (3 / fraction / 10)) := by
    rw [Real.rpow_mul (by norm_num : (0 : ℝ) ≤ 2),
      Real.rpow_logb two_pos (by norm_num) (by norm_num : (0 : ℝ) < 10)]
  rw [frequency_of_band, h10, mul_assoc, ← Real.rpow_add two_pos]

/-- C6: the composition `frequency_of_band ∘ band_of_frequency` recovers a
positive frequency up to nearest-band quantization: the result lies
strictly within one band width (a factor of `2^(1/fraction)`) of `f`. -/
theorem C6_round_trip (f fraction ref : ℝ)
    (hf : 0 < f) (hN : 0 < fraction) (href : 0 < ref) :
    f * (2 : ℝ) ^ (-1 / fraction : ℝ)
        < frequency_of_band (band_of_frequency f fraction ref) fraction ref ∧
    frequency_of_band (band_of_frequency f fraction ref) fraction ref
        < f * (2 : ℝ) ^ (1 / fraction : ℝ) := by
  have hNne : fraction ≠ 0 := hN.ne'
  have hc_lo : 5 / 3 < Real.logb 2 10 := lt_logb_two_ten
  have hc_hi : Real.logb 2 10 < 10 / 3 := logb_two_ten_lt
  have hfr : 0 < f / ref := div_pos hf href
  have hfeq : f = ref * (2 : ℝ) ^ Real.logb 2 (f / ref) := by
    rw [Real.rpow_logb two_pos (by norm_num) hfr, mul_comm,
      div_mul_cancel₀ _ href.ne']
  obtain ⟨hd1, hd2⟩ := abs_le.mp
    (abs_np_round_sub ((Real.logb 2 (f / ref) - 1 / fraction) * fraction))
  have hexp : Real.logb 2 10 * (3 / fraction / 10)
        + band_of_frequency f fraction ref / fraction
        - Real.logb 2 (f / ref)
      = (Real.logb 2 10 * (3 / 10) - 1
          + (np_round ((Real.logb 2 (f / ref) - 1 / fraction) * fraction)
              - (Real.logb 2 (f / ref) - 1 / fraction) * fraction)) / fraction := by
    rw [band_of_frequency]
    field_simp
    ring
  have hin_lo : -1 < Real.logb 2 10 * (3 / 10) - 1
      + (np_round ((Real.logb 2 (f / ref) - 1 / fraction) * fraction)
          - (Real.logb 2 (f / ref) - 1 / fraction) * fraction) := by
    linarith
  have hin_hi : Real.logb 2 10 * (3 / 10) - 1
      + (np_round ((Real.logb 2 (f / ref) - 1 / fraction) * fraction)
          - (Real.logb 2 (f / ref) - 1 / fraction) * fraction) < 1 := by
    linarith
  have hexp_lo : Real.logb 2 (f / ref) + -1 / fraction
      < Real.logb 2 10 * (3 / fraction / 10)
        + band_of_frequency f fraction ref / fraction := by
    have h1 : (-1 : ℝ) / fraction
        < (Real.logb 2 10 * (3 / 10) - 1
            + (np_round ((Real.logb 2 (f / ref) - 1 / fraction) * fraction)
                - (Real.logb 2 (f / ref) - 1 / fraction) * fraction)) / fraction :=
      (div_lt_div_iff_of_pos_right hN).mpr hin_lo
    linarith
  have hexp_hi : Real.logb 2 10 * (3 / fraction / 10)
        + band_of_frequency f fraction ref / fraction
      < Real.logb 2 (f / ref) + 1 / fraction := by
    have h1 : (Real.logb 2 10 * (3 / 10) - 1
          + (np_round ((Real.logb 2 (f / ref) - 1 / fraction) * fraction)
              - (Real.logb 2 (f / ref) - 1 / fraction) * fraction)) / fraction
        < (1 : ℝ) / fraction :=
      (div_lt_div_iff_of_pos_right hN).mpr hin_hi
    linarith
  constructor
  · calc f * (2 : ℝ) ^ (-1 / fraction : ℝ)
        = ref * (2 : ℝ) ^ Real.logb 2 (f / ref) * (2 : ℝ) ^ (-1 / fraction : ℝ) := by
          rw [← hfeq]
      _ = ref * (2 : ℝ) ^ (Real.logb 2 (f / ref) + -1 / fraction) := by
          rw [mul_assoc, ← Real.rpow_add two_pos]
      _ < ref * (2 : ℝ) ^ (Real.logb 2 10 * (3 / fraction / 10)
            + band_of_frequency f fraction ref / fraction) :=
          mul_lt_mul_of_pos_left
            ((Real.rpow_lt_rpow_left_iff one_lt_two).mpr hexp_lo) href
      _ = frequency_of_band (band_of_frequency f fraction ref) fraction ref :=
          (frequency_band_rpow _ _ _).symm
  · calc frequency_of_band (band_of_frequency f fraction ref) fraction ref
        = ref * (2 : ℝ) ^ (Real.logb 2 10 * (3 / fraction / 10)
            + band_of_frequency f fraction ref / fraction) :=
          frequency_band_rpow _ _ _
      _ < ref * (2 : ℝ) ^ (Real.logb 2 (f / ref) + 1 / fraction) :=
          mul_lt_mul_of_pos_left
            ((Real.rpow_lt_rpow_left_iff one_lt_two).mpr hexp_hi) href
      _ = ref * (2 : ℝ) ^ Real.logb 2 (f / ref) * (2 : ℝ) ^ (1 / fraction : ℝ) := by
          rw [mul_assoc, ← Real.rpow_add two_pos]
      _ = f * (2 : ℝ) ^ (1 / fraction : ℝ) := by rw [← hfeq]

/-- C6, witness: at `f = 1000`, `fraction = 1`, `ref = 1000`. -/
theorem C6_round_trip_witness :
    (1000 : ℝ) * (2 : ℝ) ^ (-1 / 1 : ℝ)
        < frequency_of_band (band_of_frequency 1000 1 1000) 1 1000 ∧
    frequency_of_band (band_of_frequency 1000 1 1000) 1 1000
        < (1000 : ℝ) * (2 : ℝ) ^ (1 / 1 : ℝ) :=
  C6_round_trip 1000 1 1000 (by norm_num) one_pos (by norm_num)

/-! ## Bandwidth (claim C8) -/

/-- A band center computed by `frequency_of_band` is positive whenever the
reference frequency is. -/
theorem frequency_of_band_pos (n fraction ref : ℝ) (href : 0 < ref) :
    0 < frequency_of_band n fraction ref := by
  rw [frequency_of_band]
  positivity

/-- For a nonnegative center and positive fraction, the upper band edge is
at least the lower one. -/
theorem upper_sub_lower_nonneg (c fraction : ℝ) (hc : 0 ≤ c) (hN : 0 < fraction) :
    0 ≤ upper_frequency c fraction - lower_frequency c fraction := by
  rw [upper_frequency, lower_frequency, ← mul_sub]
  apply mul_nonneg hc
  have h0 : (0 : ℝ) ≤ 1 / (2 * fraction) := by positivity
  have hle : (-1 : ℝ) / (2 * fraction) ≤ 1 / (2 * fraction) := by
    rw [neg_div]
    linarith
  exact sub_nonneg.mpr ((Real.rpow_le_rpow_left_iff one_lt_two).mpr hle)

/-- Elementwise subtraction of two maps over the same list is a map of the
pointwise difference. -/
theorem zipWith_sub_map_map (p q : ℝ → ℝ) (l : List ℝ) :
    List.zipWith (fun a b => a - b) (l.map p) (l.map q)
      = l.map fun a => p a - q a := by
  induction l with
  | nil => rfl
  | cons a t ih => simp [ih]

/-- C8: whenever the band sequence `n` is defined, `bandwidth` is exactly
the elementwise difference `upper - lower`, has the same length (and order)
as `n`, and — for positive fraction and reference — every element is
nonnegative. -/
theorem C8_bandwidth_elementwise (o : Octave) (ns : List ℝ)
    (hf : 0 < o.fraction) (hr : 0 < o.reference) (hn : o.n = some ns) :
    o.upper = some (ns.map fun m =>
        upper_frequency (frequency_of_band m o.fraction o.reference) o.fraction) ∧
    o.lower = some (ns.map fun m =>
        lower_frequency (frequency_of_band m o.fraction o.reference) o.fraction) ∧
    o.bandwidth = some (List.zipWith (fun a b => a - b)
        (ns.map fun m =>
          upper_frequency (frequency_of_band m o.fraction o.reference) o.fraction)
        (ns.map fun m =>
          lower_frequency (frequency_of_band m o.fraction o.reference) o.fraction)) ∧
    (List.zipWith (fun a b => a - b)
        (ns.map fun m =>
          upper_frequency (frequency_of_band m o.fraction o.reference) o.fraction)
        (ns.map fun m =>
          lower_frequency (frequency_of_band m o.fraction o.reference) o.fraction)).length
      = ns.length ∧
    (List.zipWith (fun a b => a - b)
        (ns.map fun m =>
          upper_frequency (frequency_of_band m o.fraction o.reference) o.fraction)
        (ns.map fun m =>
          lower_frequency (frequency_of_band m o.fraction o.reference) o.fraction)).Forall
      (fun x => 0 ≤ x) := by
  have hcen : o.center = some (ns.map fun m =>
      frequency_of_band m o.fraction o.reference) := by
    rw [Octave.center, hn]
    rfl
  have hup : o.upper = some (ns.map fun m =>
      upper_frequency (frequency_of_band m o.fraction o.reference) o.fraction) := by
    rw [Octave.upper, hcen]
    simp only [Option.map_some', List.map_map]
    rfl
  have hlow : o.lower = some (ns.map fun m =>
      lower_frequency (frequency_of_band m o.fraction o.reference) o.fraction) := by
    rw [Octave.lower, hcen]
    simp only [Option.map_some', List.map_map]
    rfl
  have hbw : o.bandwidth = some (List.zipWith (fun a b => a - b)
      (ns.map fun m =>
        upper_frequency (frequency_of_band m o.fraction o.reference) o.fraction)
      (ns.map fun m =>
        lower_frequency (frequency_of_band m o.fraction o.reference) o.fraction)) := by
    rw [Octave.bandwidth, hup, hlow]
  refine ⟨hup, hlow, hbw, ?_, ?_⟩
  · rw [zipWith_sub_map_map, List.length_map]
  · rw [zipWith_sub_map_map, List.forall_iff_forall_mem]
    intro x hx
    obtain ⟨m, _, rfl⟩ := List.mem_map.mp hx
    exact upper_sub_lower_nonneg _ _
      (le_of_lt (frequency_of_band_pos m o.fraction o.reference hr)) hf

/-- The calculator `Octave(fraction=1, interval=[1000], unique=True)`,
whose band sequence is the singleton `[band_of_frequency(1000, 1, 1000)]`. -/
def oC8 : Octave :=
  { reference := 1000, fraction := 1, _interval := np_asarray (some [1000]),
    _fmin := none, _fmax := none, unique := true }

/-- C8, witness: the bandwidth of `oC8` evaluated elementwise. -/
theorem C8_bandwidth_elementwise_witness :
    oC8.upper = some ([band_of_frequency 1000 1 1000].map fun m =>
        upper_frequency (frequency_of_band m oC8.fraction oC8.reference) oC8.fraction) ∧
    oC8.lower = some ([band_of_frequency 1000 1 1000].map fun m =>
        lower_frequency (frequency_of_band m oC8.fraction oC8.reference) oC8.fraction) ∧
    oC8.bandwidth = some (List.zipWith (fun a b => a - b)
        ([band_of_frequency 1000 1 1000].map fun m =>
          upper_frequency (frequency_of_band m oC8.fraction oC8.reference) oC8.fraction)
        ([band_of_frequency 1000 1 1000].map fun m =>
          lower_frequency (frequency_of_band m oC8.fraction oC8.reference) oC8.fraction)) ∧
    (List.zipWith (fun a b => a - b)
        ([band_of_frequency 1000 1 1000].map fun m =>
          upper_frequency (frequency_of_band m oC8.fraction oC8.reference) oC8.fraction)
        ([band_of_frequency 1000 1 1000].map fun m =>
          lower_frequency (frequency_of_band m oC8.fraction oC8.reference) oC8.fraction)).length
      = [band_of_frequency 1000 1 1000].length ∧
    (List.zipWith (fun a b => a - b)
        ([band_of_frequency 1000 1 1000].map fun m =>
          upper_frequency (frequency_of_band m oC8.fraction oC8.reference) oC8.fraction)
        ([band_of_frequency 1000 1 1000].map fun m =>
          lower_frequency (frequency_of_band m oC8.fraction oC8.reference) oC8.fraction)).Forall
      (fun x => 0 ≤ x) :=
  C8_bandwidth_elementwise oC8 [band_of_frequency 1000 1 1000]
    one_pos (show (0 : ℝ) < 1000 by norm_num) rfl

end

end Acoustics
